import Mathlib

/-!
Verification development for the doctor-appointment booking system.

The backend (Express + better-sqlite3, `server.js` / `db.js`) is embedded as a
state machine over `Backend.DB`.  Each mutating HTTP route becomes a Lean
function on `DB`; SQLite's constraints on the `appointments` table
(PRIMARY KEY on `id`, UNIQUE on `slot_id`, FOREIGN KEY `slot_id → slots.id`)
are modelled inside `insertAppointment`, and the `ON DELETE CASCADE` clauses
are modelled inside `deleteDoctor` / `deleteSlot`.  Since better-sqlite3 is
synchronous and the Node handlers contain no awaited suspension points between
their reads and writes, requests serialize: a run of the server is a sequence
of `step`s, and each route is a single atomic transition.

Generated identifiers (`uuidv4()` for slots and appointments) are modelled by
the counter `DB.nextId`: a freshly generated id is a value never used before,
which the counter realises deterministically.

The browser demo (`frontend/app.js`) is embedded separately in the `Frontend`
namespace over `Frontend.FState`; its ids are arbitrary strings carried by the
operations (modelling `uid()`'s randomness as nondeterminism).

Date and time strings are carried opaquely; the format validators
(`isISO8601`, the `HH:MM` regex) only reject requests without touching the
store, so they are immaterial to every property proved here.
-/

/-- JS `String.prototype.trim` (and express-validator's `trim()` sanitizer):
strips leading and trailing whitespace.  Written over the character list so
that it evaluates inside the kernel; Lean's byte-index-based `String.trim`
computes the same string. -/
def strTrim (s : String) : String :=
  String.mk (((s.data.dropWhile Char.isWhitespace).reverse.dropWhile Char.isWhitespace).reverse)

/-- JS `String.prototype.startsWith`, written over character lists. -/
def strStartsWith (s p : String) : Bool :=
  p.data.isPrefixOf s.data

namespace Backend

structure Doctor where
  id : String
  name : String
  speciality : Option String
  room : Option String
deriving DecidableEq

structure Slot where
  id : Nat
  doctorId : String
  date : String
  time : String
deriving DecidableEq

structure Appointment where
  id : Nat
  slotId : Nat
  patientName : String
  patientPhone : Option String
  reason : Option String
  status : String
  createdAt : String
deriving DecidableEq

structure DB where
  doctors : List Doctor
  slots : List Slot
  appointments : List Appointment
  nextId : Nat
deriving DecidableEq

/-- SQLite constraint failures relevant to this schema, with their error codes
(`err.code` in better-sqlite3). -/
inductive StoreErr where
  | uniqueConstraintViolation
  | foreignKeyViolation
  | primaryKeyViolation
deriving DecidableEq

def sqliteCode : StoreErr → String
  | .uniqueConstraintViolation => "SQLITE_CONSTRAINT_UNIQUE"
  | .foreignKeyViolation => "SQLITE_CONSTRAINT_FOREIGNKEY"
  | .primaryKeyViolation => "SQLITE_CONSTRAINT_PRIMARYKEY"

/-- Domain-level responses of the routes.  `notFound` stands for the
"not found" error payloads, `conflict` for the 409 responses, `invalidInput`
for express-validator rejections, `duplicateKey` for the 409 on doctor id
collision, `noContent` for 204, `internalError` for the 500 fallback. -/
inductive Resp where
  | createdDoctor (d : Doctor)
  | okDoctor (d : Doctor)
  | createdSlot (s : Slot)
  | okSlot (s : Slot)
  | createdAppointment (a : Appointment)
  | noContent
  | notFound
  | conflict
  | invalidInput
  | duplicateKey
  | internalError
deriving DecidableEq

/-- `INSERT INTO appointments ...` under the schema of `db.js`: PRIMARY KEY
on `id`, `slot_id TEXT NOT NULL UNIQUE`, `FOREIGN KEY (slot_id) REFERENCES
slots(id)`.  The uniqueness of `slot_id` is checked by the storage layer
itself, independent of any application-level read. -/
def insertAppointment (db : DB) (a : Appointment) : Except StoreErr DB :=
  if db.appointments.any (fun b => b.id == a.id) then
    .error .primaryKeyViolation
  else if db.appointments.any (fun b => b.slotId == a.slotId) then
    .error .uniqueConstraintViolation
  else if db.slots.any (fun s => s.id == a.slotId) then
    .ok { db with appointments := db.appointments ++ [a] }
  else
    .error .foreignKeyViolation

/-- The appointment row POST /appointments attempts to insert: a freshly
generated id, the trimmed patient name (the validator's `.trim()` sanitizes
`req.body` in place), status `Confirmed`, and the current timestamp. -/
def mkAppointment (db : DB) (slotId : Nat) (patientName : String)
    (patientPhone reason : Option String) (now : String) : Appointment :=
  { id := db.nextId, slotId := slotId, patientName := strTrim patientName,
    patientPhone := patientPhone, reason := reason,
    status := "Confirmed", createdAt := now }

/-- POST /appointments, with the pre-check read and the transactional insert
taken against possibly different snapshots (`dbCheck` vs `dbInsert`), so that
the handler's check-then-insert structure is visible.  The express-validator
chain (`patientName` trimmed and non-empty) runs first; then the slot
existence pre-check; then the insert inside a transaction, with every
`SQLITE_CONSTRAINT*` failure translated to the 409 "Slot already booked". -/
def bookRacy (dbCheck dbInsert : DB) (slotId : Nat) (patientName : String)
    (patientPhone reason : Option String) (now : String) : Resp × DB :=
  if strTrim patientName == "" then (.invalidInput, dbInsert)
  else
    match dbCheck.slots.find? (fun s => s.id == slotId) with
    | none => (.notFound, dbInsert)
    | some _ =>
      let a := mkAppointment dbInsert slotId patientName patientPhone reason now
      match insertAppointment dbInsert a with
      | .ok db2 => (.createdAppointment a, { db2 with nextId := db2.nextId + 1 })
      | .error e =>
        if strStartsWith (sqliteCode e) "SQLITE_CONSTRAINT" then (.conflict, dbInsert)
        else (.internalError, dbInsert)

/-- POST /appointments as actually executed: the synchronous handler reads and
writes one and the same store snapshot. -/
def book (db : DB) (slotId : Nat) (patientName : String)
    (patientPhone reason : Option String) (now : String) : Resp × DB :=
  bookRacy db db slotId patientName patientPhone reason now

/-- `speciality || null` / `room || null` in POST /doctors: empty string is
falsy in JS and becomes NULL. -/
def orNull (v : Option String) : Option String :=
  match v with
  | some x => if x == "" then none else some x
  | none => none

/-- POST /doctors: validator trims and requires `id` and `name` non-empty;
the PRIMARY KEY on doctors.id yields the 409 on collision. -/
def createDoctor (db : DB) (id name : String) (speciality room : Option String) :
    Resp × DB :=
  if strTrim id == "" || strTrim name == "" then (.invalidInput, db)
  else if db.doctors.any (fun d => d.id == strTrim id) then (.duplicateKey, db)
  else
    let d : Doctor :=
      { id := strTrim id, name := strTrim name,
        speciality := orNull speciality, room := orNull room }
    (.createdDoctor d, { db with doctors := db.doctors ++ [d] })

/-- PUT /doctors/:id: 404 if absent; otherwise destructuring defaults
(`const { name = doc.name, ... } = req.body`) fill unsupplied fields from the
current row, and `UPDATE doctors SET ... WHERE id = ?` rewrites the row. -/
def updateDoctor (db : DB) (id : String) (name speciality room : Option String) :
    Resp × DB :=
  match db.doctors.find? (fun d => d.id == id) with
  | none => (.notFound, db)
  | some doc =>
    let name2 := name.getD doc.name
    let speciality2 := match speciality with | some v => some v | none => doc.speciality
    let room2 := match room with | some v => some v | none => doc.room
    (.okDoctor { id := id, name := name2, speciality := speciality2, room := room2 },
     { db with doctors := db.doctors.map (fun e =>
        if e.id == id then { e with name := name2, speciality := speciality2, room := room2 }
        else e) })

/-- DELETE /doctors/:id: a single unconditional `DELETE FROM doctors WHERE
id = ?`; `ON DELETE CASCADE` removes the deleted doctor's slots and, in the
same statement, the appointments of those slots.  If no doctor row matches,
nothing is deleted.  The route answers 204 in every case. -/
def deleteDoctor (db : DB) (id : String) : DB :=
  if db.doctors.any (fun d => d.id == id) then
    { db with
      doctors := db.doctors.filter (fun d => d.id != id),
      slots := db.slots.filter (fun s => s.doctorId != id),
      appointments := db.appointments.filter (fun a =>
        !(db.slots.any (fun s => s.id == a.slotId && s.doctorId == id))) }
  else db

def deleteDoctorRoute (db : DB) (id : String) : Resp × DB :=
  (.noContent, deleteDoctor db id)

/-- POST /slots: the handler pre-checks doctor existence and answers the
"Doctor not found" error if absent, else inserts with a generated id. -/
def createSlot (db : DB) (doctorId date time : String) : Resp × DB :=
  if db.doctors.any (fun d => d.id == doctorId) then
    let s : Slot := { id := db.nextId, doctorId := doctorId, date := date, time := time }
    (.createdSlot s, { db with slots := db.slots ++ [s], nextId := db.nextId + 1 })
  else (.notFound, db)

/-- `req.body.doctorId || s.doctor_id` in PUT /slots/:id: absent or empty
fields fall back to the current row value. -/
def orCurrent (v : Option String) (cur : String) : String :=
  match v with
  | some x => if x == "" then cur else x
  | none => cur

/-- PUT /slots/:id: 404 if the slot is absent; 409 if an appointment
references it; otherwise the row is rewritten.  Rewriting `doctor_id` to a
nonexistent doctor trips the foreign key (`PRAGMA foreign_keys = ON`) and the
uncaught exception surfaces as a 500, leaving the store unchanged. -/
def updateSlot (db : DB) (id : Nat) (doctorId date time : Option String) :
    Resp × DB :=
  match db.slots.find? (fun s => s.id == id) with
  | none => (.notFound, db)
  | some s =>
    if db.appointments.any (fun a => a.slotId == id) then (.conflict, db)
    else
      let doctorId2 := orCurrent doctorId s.doctorId
      let date2 := orCurrent date s.date
      let time2 := orCurrent time s.time
      if db.doctors.any (fun d => d.id == doctorId2) then
        (.okSlot { id := id, doctorId := doctorId2, date := date2, time := time2 },
         { db with slots := db.slots.map (fun t =>
            if t.id == id then { t with doctorId := doctorId2, date := date2, time := time2 }
            else t) })
      else (.internalError, db)

/-- DELETE /slots/:id: unconditional delete; cascade removes the deleted
slot's appointment; 204 in every case. -/
def deleteSlot (db : DB) (id : Nat) : DB :=
  if db.slots.any (fun s => s.id == id) then
    { db with
      slots := db.slots.filter (fun s => s.id != id),
      appointments := db.appointments.filter (fun a => a.slotId != id) }
  else db

def deleteSlotRoute (db : DB) (id : Nat) : Resp × DB :=
  (.noContent, deleteSlot db id)

/-- DELETE /appointments/:id: unconditional delete, 204 in every case. -/
def cancelAppointment (db : DB) (id : Nat) : DB :=
  { db with appointments := db.appointments.filter (fun a => a.id != id) }

def cancelAppointmentRoute (db : DB) (id : Nat) : Resp × DB :=
  (.noContent, cancelAppointment db id)

/-- One mutating request to the backend. -/
inductive Op where
  | opCreateDoctor (id name : String) (speciality room : Option String)
  | opUpdateDoctor (id : String) (name speciality room : Option String)
  | opDeleteDoctor (id : String)
  | opCreateSlot (doctorId date time : String)
  | opUpdateSlot (id : Nat) (doctorId date time : Option String)
  | opDeleteSlot (id : Nat)
  | opBook (slotId : Nat) (patientName : String) (patientPhone reason : Option String)
      (now : String)
  | opCancelAppointment (id : Nat)

/-- The store transition made by one request (GET routes do not mutate). -/
def step (db : DB) : Op → DB
  | .opCreateDoctor id name sp rm => (createDoctor db id name sp rm).2
  | .opUpdateDoctor id nm sp rm => (updateDoctor db id nm sp rm).2
  | .opDeleteDoctor id => deleteDoctor db id
  | .opCreateSlot d dt tm => (createSlot db d dt tm).2
  | .opUpdateSlot id d dt tm => (updateSlot db id d dt tm).2
  | .opDeleteSlot id => deleteSlot db id
  | .opBook sid nm ph rs now => (book db sid nm ph rs now).2
  | .opCancelAppointment id => cancelAppointment db id

/-- The seeded database created by `node db.js --init` (generated slot ids
rendered as counter values 0, 1, 2). -/
def initDB : DB :=
  { doctors :=
      [ { id := "D001", name := "Dr. Asha Mehta", speciality := some "General Physician",
          room := some "101" },
        { id := "D002", name := "Dr. Rajesh Singh", speciality := some "Cardiologist",
          room := some "201" } ],
    slots :=
      [ { id := 0, doctorId := "D001", date := "2026-10-11", time := "09:00" },
        { id := 1, doctorId := "D001", date := "2026-10-11", time := "09:30" },
        { id := 2, doctorId := "D002", date := "2026-10-11", time := "10:00" } ],
    appointments := [],
    nextId := 3 }

/-- States of the store reachable from the seeded database. -/
inductive Reachable : DB → Prop where
  | init : Reachable initDB
  | next (db : DB) (op : Op) : Reachable db → Reachable (step db op)

/-- The core invariant: no two appointments reference the same slot. -/
def UniqueSlotIds (db : DB) : Prop :=
  db.appointments.Pairwise (fun a b => a.slotId ≠ b.slotId)

/-- A booking request body. -/
structure BookReq where
  patientName : String
  patientPhone : Option String
  reason : Option String
  now : String

/-- A batch of booking requests for the same slot, in serialization order
(better-sqlite3 serializes concurrent requests). -/
def bookMany (db : DB) (slotId : Nat) : List BookReq → List Resp × DB
  | [] => ([], db)
  | r :: rs =>
    let p := book db slotId r.patientName r.patientPhone r.reason r.now
    let q := bookMany p.2 slotId rs
    (p.1 :: q.1, q.2)

end Backend

namespace Frontend

structure FDoctor where
  id : String
  name : String
  speciality : String
  room : String
deriving DecidableEq

structure FSlot where
  id : String
  doctorId : String
  date : String
  time : String
deriving DecidableEq

structure FAppointment where
  id : String
  slotId : String
  patientName : String
  patientPhone : String
  reason : String
  status : String
  createdAt : String
deriving DecidableEq

/-- The demo's localStorage-backed state object (`state.settings` omitted:
it never touches the three entity collections). -/
structure FState where
  doctors : List FDoctor
  slots : List FSlot
  appointments : List FAppointment
deriving DecidableEq

def isSlotBooked (st : FState) (slotId : String) : Bool :=
  st.appointments.any (fun a => a.slotId == slotId)

/-- The "Confirm Appointment" click handler in `renderBookingForm`: rejects an
empty slot selection, an empty patient name, and — the uniqueness guard — a
slot that already has an appointment; otherwise pushes the new appointment.
`newId` is the `uid('AP')` value, `now` the `createdAt` timestamp. -/
def confirmBooking (st : FState) (slotId patientName patientPhone reason newId now : String) :
    FState :=
  if slotId == "" then st
  else if strTrim patientName == "" then st
  else if isSlotBooked st slotId then st
  else
    { st with appointments := st.appointments ++
        [{ id := newId, slotId := slotId, patientName := strTrim patientName,
           patientPhone := strTrim patientPhone, reason := strTrim reason,
           status := "Confirmed", createdAt := now }] }

/-- `deleteDoctor` in `app.js`: keeps the slots of other doctors, keeps only
the appointments whose slot survives, and drops the doctor. -/
def deleteDoctor (st : FState) (doctorId : String) : FState :=
  let remainingSlots := st.slots.filter (fun s => s.doctorId != doctorId)
  let remainingAppointments := st.appointments.filter (fun a =>
    remainingSlots.any (fun s => s.id == a.slotId))
  { doctors := st.doctors.filter (fun d => d.id != doctorId),
    slots := remainingSlots,
    appointments := remainingAppointments }

/-- `cancelAppointment` in `app.js` (after the confirm dialog). -/
def cancelAppointment (st : FState) (appointmentId : String) : FState :=
  { st with appointments := st.appointments.filter (fun a => a.id != appointmentId) }

/-- The "Save" handler of `renderDoctorForm` in create mode. -/
def saveNewDoctor (st : FState) (id name spec room : String) : FState :=
  if strTrim id == "" || strTrim name == "" then st
  else if st.doctors.any (fun d => d.id == strTrim id) then st
  else
    { st with doctors := st.doctors ++
        [{ id := strTrim id, name := strTrim name, speciality := strTrim spec, room := strTrim room }] }

/-- The "Save" handler of `renderDoctorForm` in edit mode (`Object.assign` on
the doctor found by id; id itself is a disabled input and never changes). -/
def saveEditDoctor (st : FState) (id name spec room : String) : FState :=
  if strTrim id == "" || strTrim name == "" then st
  else
    { st with doctors := st.doctors.map (fun d =>
        if d.id == strTrim id then
          { d with name := strTrim name, speciality := strTrim spec, room := strTrim room }
        else d) }

/-- The "Save slot" handler of `renderSlotForm` in create mode; `newId` is the
`uid('SL')` value. -/
def saveNewSlot (st : FState) (newId doctorId date time : String) : FState :=
  if doctorId == "" || date == "" || time == "" then st
  else { st with slots := st.slots ++ [{ id := newId, doctorId := doctorId, date := date, time := time }] }

/-- The "Save slot" handler of `renderSlotForm` in edit mode (`Object.assign`
on the slot found by id; no check that the slot is unbooked). -/
def saveEditSlot (st : FState) (slotId doctorId date time : String) : FState :=
  if doctorId == "" || date == "" || time == "" then st
  else
    { st with slots := st.slots.map (fun s =>
        if s.id == slotId then { s with doctorId := doctorId, date := date, time := time }
        else s) }

/-- One state-mutating user action of the demo. -/
inductive FOp where
  | book (slotId patientName patientPhone reason newId now : String)
  | delDoctor (doctorId : String)
  | cancel (appointmentId : String)
  | newDoctor (id name spec room : String)
  | editDoctor (id name spec room : String)
  | newSlot (newId doctorId date time : String)
  | editSlot (slotId doctorId date time : String)

/-- The single-writer transition of the demo. -/
def fStep (st : FState) : FOp → FState
  | .book sid nm ph rs nid now => confirmBooking st sid nm ph rs nid now
  | .delDoctor did => deleteDoctor st did
  | .cancel aid => cancelAppointment st aid
  | .newDoctor id nm sp rm => saveNewDoctor st id nm sp rm
  | .editDoctor id nm sp rm => saveEditDoctor st id nm sp rm
  | .newSlot nid did dt tm => saveNewSlot st nid did dt tm
  | .editSlot sid did dt tm => saveEditSlot st sid did dt tm

/-- The demo's uniqueness invariant: no two appointments share a `slotId`. -/
def FUnique (st : FState) : Prop :=
  st.appointments.Pairwise (fun a b => a.slotId ≠ b.slotId)

/-- The demo's seeded default state (`defaultState` with `todayISO(0)`
rendered as a fixed date). -/
def defaultState : FState :=
  { doctors :=
      [ { id := "D001", name := "Dr. Asha Mehta", speciality := "General Physician", room := "101" },
        { id := "D002", name := "Dr. Rajesh Singh", speciality := "Cardiologist", room := "201" } ],
    slots :=
      [ { id := "S1", doctorId := "D001", date := "2026-10-11", time := "09:00" },
        { id := "S2", doctorId := "D001", date := "2026-10-11", time := "09:30" },
        { id := "S3", doctorId := "D002", date := "2026-10-11", time := "10:00" } ],
    appointments := [] }

end Frontend

namespace Backend

theorem sqliteCode_constraint (e : StoreErr) :
    strStartsWith (sqliteCode e) "SQLITE_CONSTRAINT" = true := by
  cases e <;> decide

theorem insertAppointment_ok {db : DB} {a : Appointment} {db2 : DB}
    (h : insertAppointment db a = .ok db2) :
    db2.doctors = db.doctors ∧ db2.slots = db.slots ∧
      db2.appointments = db.appointments ++ [a] ∧ db2.nextId = db.nextId ∧
      (∀ b ∈ db.appointments, b.slotId ≠ a.slotId) ∧
      (∀ b ∈ db.appointments, b.id ≠ a.id) ∧
      (∃ s ∈ db.slots, s.id = a.slotId) := by
  unfold insertAppointment at h
  split at h
  · cases h
  rename_i hpk
  split at h
  · cases h
  rename_i huniq
  split at h
  · rename_i hfk
    cases h
    simp only [List.any_eq_true, beq_iff_eq, not_exists, not_and] at hpk huniq hfk
    refine ⟨rfl, rfl, rfl, rfl, ?_, ?_, hfk⟩
    · intro b hb
      exact fun hc => (huniq b hb) hc
    · intro b hb
      exact fun hc => (hpk b hb) hc
  · cases h

theorem insertAppointment_error_of_booked (db : DB) (a : Appointment)
    (hb : ∃ b ∈ db.appointments, b.slotId = a.slotId) :
    ∃ e, insertAppointment db a = .error e := by
  unfold insertAppointment
  split
  · exact ⟨_, rfl⟩
  split
  · exact ⟨_, rfl⟩
  · rename_i huniq
    exact absurd (by simpa only [List.any_eq_true, beq_iff_eq] using hb) huniq

theorem insertAppointment_error_of_no_slot (db : DB) (a : Appointment)
    (hs : ∀ s ∈ db.slots, s.id ≠ a.slotId) :
    ∃ e, insertAppointment db a = .error e := by
  unfold insertAppointment
  split
  · exact ⟨_, rfl⟩
  split
  · exact ⟨_, rfl⟩
  split
  · rename_i hfk
    simp only [List.any_eq_true, beq_iff_eq] at hfk
    obtain ⟨s, hsmem, hsid⟩ := hfk
    exact absurd hsid (hs s hsmem)
  · exact ⟨_, rfl⟩

end Backend

namespace Backend

theorem book_invalidInput (db : DB) (sid : Nat) (nm : String) (ph rs : Option String)
    (now : String) (h : strTrim nm = "") :
    book db sid nm ph rs now = (.invalidInput, db) := by
  unfold book bookRacy
  simp [h]

theorem book_notFound (db : DB) (sid : Nat) (nm : String) (ph rs : Option String)
    (now : String) (h : strTrim nm ≠ "") (hs : ∀ s ∈ db.slots, s.id ≠ sid) :
    book db sid nm ph rs now = (.notFound, db) := by
  unfold book bookRacy
  rw [if_neg (by simpa using h)]
  have hfind : db.slots.find? (fun s => s.id == sid) = none := by
    rw [List.find?_eq_none]
    intro s hsm
    simpa using hs s hsm
  rw [hfind]

theorem book_conflict (db : DB) (sid : Nat) (nm : String) (ph rs : Option String)
    (now : String) (h : strTrim nm ≠ "") (hs : ∃ s ∈ db.slots, s.id = sid)
    (hb : ∃ b ∈ db.appointments, b.slotId = sid) :
    book db sid nm ph rs now = (.conflict, db) := by
  unfold book bookRacy
  rw [if_neg (by simpa using h)]
  have hfind : (db.slots.find? (fun s => s.id == sid)).isSome := by
    rw [List.find?_isSome]
    obtain ⟨s, hsm, hsid⟩ := hs
    exact ⟨s, hsm, by simpa using hsid⟩
  obtain ⟨s0, hs0⟩ := Option.isSome_iff_exists.mp hfind
  simp only [hs0]
  obtain ⟨e, he⟩ := insertAppointment_error_of_booked db
    (mkAppointment db sid nm ph rs now) (by simpa [mkAppointment] using hb)
  simp only [he, sqliteCode_constraint e, if_true]

theorem book_success (db : DB) (sid : Nat) (nm : String) (ph rs : Option String)
    (now : String) (h : strTrim nm ≠ "") (hs : ∃ s ∈ db.slots, s.id = sid)
    (hfree : ∀ b ∈ db.appointments, b.slotId ≠ sid)
    (hfresh : ∀ b ∈ db.appointments, b.id ≠ db.nextId) :
    book db sid nm ph rs now =
      (.createdAppointment (mkAppointment db sid nm ph rs now),
       { db with
          appointments := db.appointments ++ [mkAppointment db sid nm ph rs now],
          nextId := db.nextId + 1 }) := by
  unfold book bookRacy
  rw [if_neg (by simpa using h)]
  have hfind : (db.slots.find? (fun s => s.id == sid)).isSome := by
    rw [List.find?_isSome]
    obtain ⟨s, hsm, hsid⟩ := hs
    exact ⟨s, hsm, by simpa using hsid⟩
  obtain ⟨s0, hs0⟩ := Option.isSome_iff_exists.mp hfind
  simp only [hs0]
  have hins : insertAppointment db (mkAppointment db sid nm ph rs now) =
      .ok { db with appointments := db.appointments ++ [mkAppointment db sid nm ph rs now] } := by
    unfold insertAppointment
    rw [if_neg, if_neg, if_pos]
    · simp only [List.any_eq_true, beq_iff_eq]
      obtain ⟨s, hsm, hsid⟩ := hs
      exact ⟨s, hsm, by simpa [mkAppointment] using hsid⟩
    · simp only [List.any_eq_true, beq_iff_eq, not_exists, not_and]
      intro b hb
      simpa [mkAppointment] using hfree b hb
    · simp only [List.any_eq_true, beq_iff_eq, not_exists, not_and]
      intro b hb
      simpa [mkAppointment] using hfresh b hb
  simp only [hins]

end Backend

namespace Backend

theorem appointments_createDoctor (db : DB) (i n : String) (sp rm : Option String) :
    ((createDoctor db i n sp rm).2).appointments = db.appointments := by
  unfold createDoctor
  split
  · rfl
  split <;> rfl

theorem appointments_updateDoctor (db : DB) (i : String) (nm sp rm : Option String) :
    ((updateDoctor db i nm sp rm).2).appointments = db.appointments := by
  unfold updateDoctor
  split <;> rfl

theorem appointments_createSlot (db : DB) (d dt tm : String) :
    ((createSlot db d dt tm).2).appointments = db.appointments := by
  unfold createSlot
  split <;> rfl

theorem appointments_updateSlot (db : DB) (i : Nat) (d dt tm : Option String) :
    ((updateSlot db i d dt tm).2).appointments = db.appointments := by
  unfold updateSlot
  split
  · rfl
  split
  · rfl
  dsimp only
  split <;> rfl

theorem book_step_appointments (db : DB) (sid : Nat) (nm : String) (ph rs : Option String)
    (now : String) :
    (book db sid nm ph rs now).2.appointments = db.appointments ∨
    ∃ a : Appointment, a.slotId = sid ∧ (∀ b ∈ db.appointments, b.slotId ≠ sid) ∧
      (book db sid nm ph rs now).2.appointments = db.appointments ++ [a] := by
  unfold book bookRacy
  split
  · exact Or.inl rfl
  rcases hfind : db.slots.find? (fun s => s.id == sid) with _ | s0
  all_goals simp only [hfind]
  · exact Or.inl (by trivial)
  · rcases hins : insertAppointment db (mkAppointment db sid nm ph rs now) with e | db2
    all_goals simp only [hins]
    · split <;> exact Or.inl (by trivial)
    · obtain ⟨_, _, happ, _, hfree, _, _⟩ := insertAppointment_ok hins
      refine Or.inr ⟨mkAppointment db sid nm ph rs now, rfl, ?_, ?_⟩
      · intro b hb
        simpa [mkAppointment] using hfree b hb
      · simpa using happ

end Backend

namespace Backend

theorem uniq_of_filter {l : List Appointment} {p : Appointment → Bool}
    (h : l.Pairwise (fun a b => a.slotId ≠ b.slotId)) :
    (l.filter p).Pairwise (fun a b => a.slotId ≠ b.slotId) :=
  List.Pairwise.sublist (List.filter_sublist l) h

theorem uniq_step (db : DB) (op : Op) (h : UniqueSlotIds db) :
    UniqueSlotIds (step db op) := by
  unfold UniqueSlotIds at h ⊢
  cases op with
  | opCreateDoctor i n sp rm =>
    rw [step, appointments_createDoctor]
    exact h
  | opUpdateDoctor i nm sp rm =>
    rw [step, appointments_updateDoctor]
    exact h
  | opDeleteDoctor i =>
    rw [step]
    unfold deleteDoctor
    split
    · exact uniq_of_filter h
    · exact h
  | opCreateSlot d dt tm =>
    rw [step, appointments_createSlot]
    exact h
  | opUpdateSlot i d dt tm =>
    rw [step, appointments_updateSlot]
    exact h
  | opDeleteSlot i =>
    rw [step]
    unfold deleteSlot
    split
    · exact uniq_of_filter h
    · exact h
  | opBook sid nm ph rs now =>
    rw [step]
    rcases book_step_appointments db sid nm ph rs now with heq | ⟨a, ha, hfree, heq⟩
    · rw [heq]
      exact h
    · rw [heq, List.pairwise_append]
      refine ⟨h, List.pairwise_singleton _ _, ?_⟩
      intro x hx y hy
      have hya : y = a := by simpa using hy
      subst hya
      rw [ha]
      exact hfree x hx
  | opCancelAppointment i =>
    rw [step]
    exact uniq_of_filter h

theorem uniq_reachable (db : DB) (h : Reachable db) : UniqueSlotIds db := by
  induction h with
  | init => exact List.Pairwise.nil
  | next db op _ ih => exact uniq_step db op ih

end Backend

/-- C1: For every reachable state of the backend store, at most one
appointment references any given slot; every operation (booking, slot/doctor
creation, updates, deletes) preserves the invariant; and the storage layer
itself enforces it: `insertAppointment` only succeeds when no existing row
carries the same `slotId`. -/
theorem C1_unique_slotId_invariant :
    (∀ db, Backend.Reachable db → Backend.UniqueSlotIds db) ∧
    (∀ db op, Backend.UniqueSlotIds db → Backend.UniqueSlotIds (Backend.step db op)) ∧
    (∀ db a db2, Backend.insertAppointment db a = Except.ok db2 →
      ∀ b ∈ db.appointments, b.slotId ≠ a.slotId) :=
  ⟨Backend.uniq_reachable, Backend.uniq_step,
   fun _ _ _ h => (Backend.insertAppointment_ok h).2.2.2.2.1⟩

/-- Witness for C1: the invariant holds after a concrete booking step from the
seeded store. -/
theorem C1_unique_slotId_invariant_witness :
    Backend.UniqueSlotIds (Backend.step Backend.initDB
      (Backend.Op.opBook 0 "Alice" none none "2026-10-11T09:00:00.000Z")) :=
  C1_unique_slotId_invariant.2.1 Backend.initDB _
    (C1_unique_slotId_invariant.1 Backend.initDB Backend.Reachable.init)

namespace Backend

theorem bookMany_conflicts (db : DB) (sid : Nat) (rs : List BookReq)
    (hs : ∃ s ∈ db.slots, s.id = sid)
    (hb : ∃ b ∈ db.appointments, b.slotId = sid)
    (hnames : ∀ q ∈ rs, strTrim q.patientName ≠ "") :
    bookMany db sid rs = (rs.map (fun _ => Resp.conflict), db) := by
  induction rs with
  | nil => rfl
  | cons r rs2 ih =>
    have hr : strTrim r.patientName ≠ "" := hnames r (List.mem_cons_self r rs2)
    have hbk := book_conflict db sid r.patientName r.patientPhone r.reason r.now hr hs hb
    have ih2 := ih (fun q hq => hnames q (List.mem_cons_of_mem r hq))
    simp only [bookMany, hbk, ih2, List.map]

end Backend

/-- C2: When N booking requests race for the same free slot, the serialized
execution (better-sqlite3 serializes the transactions, in any order the N
requests arrive) lets exactly the first one succeed; the other N−1 receive
Conflict, and afterwards exactly one appointment references the slot. -/
theorem C2_concurrent_booking_one_winner (db : Backend.DB) (sid : Nat)
    (r : Backend.BookReq) (rs : List Backend.BookReq)
    (hs : ∃ s ∈ db.slots, s.id = sid)
    (hfree : ∀ b ∈ db.appointments, b.slotId ≠ sid)
    (hfresh : ∀ b ∈ db.appointments, b.id ≠ db.nextId)
    (hnames : ∀ q ∈ r :: rs, strTrim q.patientName ≠ "") :
    ∃ a : Backend.Appointment, a.slotId = sid ∧
      (Backend.bookMany db sid (r :: rs)).1 =
        Backend.Resp.createdAppointment a :: rs.map (fun _ => Backend.Resp.conflict) ∧
      ((Backend.bookMany db sid (r :: rs)).2.appointments.filter
        (fun b => b.slotId == sid)).length = 1 := by
  obtain ⟨s, hsm, hsid⟩ := hs
  have hr : strTrim r.patientName ≠ "" := hnames r (List.mem_cons_self r rs)
  have hbk := Backend.book_success db sid r.patientName r.patientPhone r.reason r.now
    hr ⟨s, hsm, hsid⟩ hfree hfresh
  have hq := Backend.bookMany_conflicts
    ({ db with
        appointments := db.appointments ++
          [Backend.mkAppointment db sid r.patientName r.patientPhone r.reason r.now],
        nextId := db.nextId + 1 }) sid rs
    ⟨s, hsm, hsid⟩
    ⟨Backend.mkAppointment db sid r.patientName r.patientPhone r.reason r.now,
      by simp, rfl⟩
    (fun q hq => hnames q (List.mem_cons_of_mem r hq))
  refine ⟨Backend.mkAppointment db sid r.patientName r.patientPhone r.reason r.now,
    rfl, ?_, ?_⟩
  · simp only [Backend.bookMany, hbk, hq]
  · simp only [Backend.bookMany, hbk, hq]
    rw [List.filter_append, List.length_append]
    have h1 : db.appointments.filter (fun b => b.slotId == sid) = [] := by
      rw [List.filter_eq_nil_iff]
      intro b hb
      simpa using hfree b hb
    rw [h1]
    simp [Backend.mkAppointment]

/-- Witness for C2: two rival requests for seeded slot 0 — "Alice" wins,
"Bob" gets Conflict, one appointment remains on the slot. -/
theorem C2_concurrent_booking_one_winner_witness :
    ∃ a : Backend.Appointment, a.slotId = 0 ∧
      (Backend.bookMany Backend.initDB 0
        [⟨"Alice", none, none, "T1"⟩, ⟨"Bob", none, none, "T2"⟩]).1 =
        Backend.Resp.createdAppointment a ::
          [(⟨"Bob", none, none, "T2"⟩ : Backend.BookReq)].map (fun _ => Backend.Resp.conflict) ∧
      ((Backend.bookMany Backend.initDB 0
        [⟨"Alice", none, none, "T1"⟩, ⟨"Bob", none, none, "T2"⟩]).2.appointments.filter
        (fun b => b.slotId == 0)).length = 1 :=
  C2_concurrent_booking_one_winner Backend.initDB 0 ⟨"Alice", none, none, "T1"⟩
    [⟨"Bob", none, none, "T2"⟩] (by decide) (by decide) (by decide) (by decide)

/-- C3 counterexample: in the seeded store no slot 99 exists, yet booking it
with an empty patient name yields InvalidInput, not the NotFound the claim
requires — the express-validator chain runs before the slot lookup. -/
theorem C3_counterexample :
    (∀ s ∈ Backend.initDB.slots, s.id ≠ 99) ∧
    (Backend.book Backend.initDB 99 "" none none "T").1 = Backend.Resp.invalidInput ∧
    Backend.Resp.invalidInput ≠ Backend.Resp.notFound := by
  decide

/-- C3 (amended): the book operation checks in this order: if `patientName`
is empty or whitespace-only it fails with InvalidInput; otherwise if no slot
with the given id exists it fails with NotFound; otherwise if the slot
already has an appointment it fails with Conflict; otherwise it persists and
returns an appointment with status Confirmed, a fresh id and the creation
timestamp.  Failures leave the store unchanged. -/
theorem C3_book_case_analysis (db : Backend.DB) (sid : Nat) (nm : String)
    (ph rs : Option String) (now : String) :
    (strTrim nm = "" →
      Backend.book db sid nm ph rs now = (Backend.Resp.invalidInput, db)) ∧
    (strTrim nm ≠ "" → (∀ s ∈ db.slots, s.id ≠ sid) →
      Backend.book db sid nm ph rs now = (Backend.Resp.notFound, db)) ∧
    (strTrim nm ≠ "" → (∃ s ∈ db.slots, s.id = sid) →
      (∃ b ∈ db.appointments, b.slotId = sid) →
      Backend.book db sid nm ph rs now = (Backend.Resp.conflict, db)) ∧
    (strTrim nm ≠ "" → (∃ s ∈ db.slots, s.id = sid) →
      (∀ b ∈ db.appointments, b.slotId ≠ sid) →
      (∀ b ∈ db.appointments, b.id ≠ db.nextId) →
      ∃ a : Backend.Appointment,
        Backend.book db sid nm ph rs now =
          (Backend.Resp.createdAppointment a,
           { db with appointments := db.appointments ++ [a], nextId := db.nextId + 1 }) ∧
        a.status = "Confirmed" ∧ a.slotId = sid ∧ a.createdAt = now ∧
        a.id = db.nextId ∧ ∀ b ∈ db.appointments, b.id ≠ a.id) :=
  ⟨fun h => Backend.book_invalidInput db sid nm ph rs now h,
   fun h hs => Backend.book_notFound db sid nm ph rs now h hs,
   fun h hs hb => Backend.book_conflict db sid nm ph rs now h hs hb,
   fun h hs hfree hfresh =>
     ⟨Backend.mkAppointment db sid nm ph rs now,
      Backend.book_success db sid nm ph rs now h hs hfree hfresh, rfl, rfl, rfl, rfl,
      fun b hb => hfresh b hb⟩⟩

/-- Witness for C3 (amended), success branch at the seeded store. -/
theorem C3_book_case_analysis_witness :
    ∃ a : Backend.Appointment,
      Backend.book Backend.initDB 0 "Alice" none none "T" =
        (Backend.Resp.createdAppointment a,
         { Backend.initDB with
            appointments := Backend.initDB.appointments ++ [a],
            nextId := Backend.initDB.nextId + 1 }) ∧
      a.status = "Confirmed" ∧ a.slotId = 0 ∧ a.createdAt = "T" ∧
      a.id = Backend.initDB.nextId ∧ ∀ b ∈ Backend.initDB.appointments, b.id ≠ a.id :=
  (C3_book_case_analysis Backend.initDB 0 "Alice" none none "T").2.2.2
    (by decide) (by decide) (by decide) (by decide)

namespace Backend

theorem length_filter_not_add {α : Type} (p : α → Bool) (l : List α) :
    (l.filter (fun x => !(p x))).length + (l.filter p).length = l.length := by
  induction l with
  | nil => rfl
  | cons x l ih =>
    by_cases h : p x = true
    · simp [List.filter_cons, h]
      omega
    · simp [List.filter_cons, h]
      omega

end Backend

/-- C4: deleting a doctor removes exactly that doctor, exactly its slots, and
exactly the appointments booked on those slots, and nothing else; the removal
is one atomic transition of the store (a single cascading DELETE). -/
theorem C4_deleteDoctor_cascade (db : Backend.DB) (id : String)
    (hd : ∃ d ∈ db.doctors, d.id = id) :
    (∀ d : Backend.Doctor, d ∈ (Backend.deleteDoctor db id).doctors ↔
       d ∈ db.doctors ∧ d.id ≠ id) ∧
    (∀ s : Backend.Slot, s ∈ (Backend.deleteDoctor db id).slots ↔
       s ∈ db.slots ∧ s.doctorId ≠ id) ∧
    (∀ a : Backend.Appointment, a ∈ (Backend.deleteDoctor db id).appointments ↔
       a ∈ db.appointments ∧ ¬ ∃ s ∈ db.slots, s.id = a.slotId ∧ s.doctorId = id) ∧
    (Backend.deleteDoctor db id).nextId = db.nextId ∧
    db.slots.length = (Backend.deleteDoctor db id).slots.length +
      (db.slots.filter (fun s => s.doctorId == id)).length ∧
    db.appointments.length = (Backend.deleteDoctor db id).appointments.length +
      (db.appointments.filter (fun a =>
        db.slots.any (fun s => s.id == a.slotId && s.doctorId == id))).length := by
  have hcond : (db.doctors.any (fun d => d.id == id)) = true := by
    simp only [List.any_eq_true, beq_iff_eq]
    exact hd
  unfold Backend.deleteDoctor
  rw [if_pos hcond]
  refine ⟨?_, ?_, ?_, rfl, ?_, ?_⟩
  · intro d
    simp [List.mem_filter]
  · intro s
    simp [List.mem_filter]
  · intro a
    simp [List.mem_filter, List.any_eq_true]
  · have h5 := Backend.length_filter_not_add (fun s : Backend.Slot => s.doctorId == id) db.slots
    dsimp only at h5 ⊢
    simp only [bne] at h5 ⊢
    omega
  · have h6 := Backend.length_filter_not_add
      (fun a : Backend.Appointment =>
        db.slots.any (fun s => s.id == a.slotId && s.doctorId == id)) db.appointments
    dsimp only at h6 ⊢
    omega

/-- Witness for C4: deleting seeded doctor D001 removes its two slots. -/
theorem C4_deleteDoctor_cascade_witness :
    Backend.initDB.slots.length = (Backend.deleteDoctor Backend.initDB "D001").slots.length +
      (Backend.initDB.slots.filter (fun s => s.doctorId == "D001")).length :=
  (C4_deleteDoctor_cascade Backend.initDB "D001" (by decide)).2.2.2.2.1

/-- C5: updating a slot that currently has an appointment fails with Conflict
regardless of which fields the patch contains, and leaves the store
unchanged. -/
theorem C5_updateSlot_conflict (db : Backend.DB) (id : Nat)
    (doctorId date time : Option String)
    (hs : ∃ s ∈ db.slots, s.id = id)
    (hb : ∃ b ∈ db.appointments, b.slotId = id) :
    Backend.updateSlot db id doctorId date time = (Backend.Resp.conflict, db) := by
  unfold Backend.updateSlot
  have hfind : (db.slots.find? (fun s => s.id == id)).isSome := by
    rw [List.find?_isSome]
    obtain ⟨s, hsm, hsid⟩ := hs
    exact ⟨s, hsm, by simpa using hsid⟩
  obtain ⟨s0, hs0⟩ := Option.isSome_iff_exists.mp hfind
  have hcond : (db.appointments.any (fun a => a.slotId == id)) = true := by
    simp only [List.any_eq_true, beq_iff_eq]
    exact hb
  simp [hs0, hcond]

/-- Witness for C5: after booking seeded slot 0, patching it fails with
Conflict and changes nothing. -/
theorem C5_updateSlot_conflict_witness :
    Backend.updateSlot (Backend.book Backend.initDB 0 "Alice" none none "T").2 0
        (some "D002") none none =
      (Backend.Resp.conflict, (Backend.book Backend.initDB 0 "Alice" none none "T").2) :=
  C5_updateSlot_conflict _ 0 (some "D002") none none (by decide) (by decide)

/-- C6: after cancelling the appointment of a booked slot, the slot is
immediately bookable again: a subsequent book succeeds and yields an
appointment whose id differs from the cancelled one. -/
theorem C6_cancel_then_rebook (db : Backend.DB) (s : Backend.Slot)
    (a : Backend.Appointment) (nm : String) (ph rs : Option String) (now : String)
    (huniq : Backend.UniqueSlotIds db)
    (hfresh : ∀ b ∈ db.appointments, b.id < db.nextId)
    (hs : s ∈ db.slots) (ha : a ∈ db.appointments) (hasl : a.slotId = s.id)
    (hnm : strTrim nm ≠ "") :
    ∃ a2 : Backend.Appointment,
      Backend.book (Backend.cancelAppointment db a.id) s.id nm ph rs now =
        (Backend.Resp.createdAppointment a2,
         { Backend.cancelAppointment db a.id with
            appointments := (Backend.cancelAppointment db a.id).appointments ++ [a2],
            nextId := db.nextId + 1 }) ∧
      a2.slotId = s.id ∧ a2.id ≠ a.id := by
  have hmemc : ∀ b ∈ (Backend.cancelAppointment db a.id).appointments,
      b ∈ db.appointments ∧ b.id ≠ a.id := by
    intro b hbm
    have := List.mem_filter.mp hbm
    exact ⟨this.1, by simpa using this.2⟩
  have hfree1 : ∀ b ∈ (Backend.cancelAppointment db a.id).appointments,
      b.slotId ≠ s.id := by
    intro b hbm
    obtain ⟨hbdb, hbid⟩ := hmemc b hbm
    have hne : b ≠ a := fun h => hbid (by rw [h])
    have hsym : Symmetric (fun x y : Backend.Appointment => x.slotId ≠ y.slotId) :=
      fun x y h => h.symm
    have hp : db.appointments.Pairwise (fun x y : Backend.Appointment => x.slotId ≠ y.slotId) :=
      huniq
    have hRba := (hp.forall hsym) hbdb ha hne
    rw [← hasl]
    exact hRba
  have hfresh1 : ∀ b ∈ (Backend.cancelAppointment db a.id).appointments,
      b.id ≠ (Backend.cancelAppointment db a.id).nextId := by
    intro b hbm
    exact Nat.ne_of_lt (hfresh b (hmemc b hbm).1)
  have hs1 : ∃ t ∈ (Backend.cancelAppointment db a.id).slots, t.id = s.id := ⟨s, hs, rfl⟩
  have hbk := Backend.book_success (Backend.cancelAppointment db a.id) s.id nm ph rs now
    hnm hs1 hfree1 hfresh1
  refine ⟨Backend.mkAppointment (Backend.cancelAppointment db a.id) s.id nm ph rs now,
    hbk, rfl, ?_⟩
  have haid : a.id < db.nextId := hfresh a ha
  exact fun h => absurd (h ▸ haid) (Nat.lt_irrefl _)

/-- Witness for C6: book seeded slot 0 as Alice (appointment id 3), cancel
it, rebook as Bob — succeeds with a different id. -/
theorem C6_cancel_then_rebook_witness :
    ∃ a2 : Backend.Appointment,
      Backend.book
          (Backend.cancelAppointment (Backend.book Backend.initDB 0 "Alice" none none "T1").2 3)
          0 "Bob" none none "T2" =
        (Backend.Resp.createdAppointment a2,
         { Backend.cancelAppointment (Backend.book Backend.initDB 0 "Alice" none none "T1").2 3 with
            appointments :=
              (Backend.cancelAppointment
                (Backend.book Backend.initDB 0 "Alice" none none "T1").2 3).appointments ++ [a2],
            nextId := (Backend.book Backend.initDB 0 "Alice" none none "T1").2.nextId + 1 }) ∧
      a2.slotId = 0 ∧ a2.id ≠ 3 :=
  C6_cancel_then_rebook (Backend.book Backend.initDB 0 "Alice" none none "T1").2
    ⟨0, "D001", "2026-10-11", "09:00"⟩
    ⟨3, 0, "Alice", none, none, "Confirmed", "T1"⟩
    "Bob" none none "T2"
    (by unfold Backend.UniqueSlotIds; decide) (by decide) (by decide) (by decide)
    rfl (by decide)

/-- C7 counterexample: no entity named D999 / 99 exists in the seeded store,
yet all three delete routes answer 204 No Content (success), not the
NotFound the claim requires — they issue unconditional DELETEs. -/
theorem C7_counterexample :
    (∀ d ∈ Backend.initDB.doctors, d.id ≠ "D999") ∧
    (∀ s ∈ Backend.initDB.slots, s.id ≠ 99) ∧
    (∀ a ∈ Backend.initDB.appointments, a.id ≠ 99) ∧
    Backend.deleteDoctorRoute Backend.initDB "D999" = (Backend.Resp.noContent, Backend.initDB) ∧
    Backend.deleteSlotRoute Backend.initDB 99 = (Backend.Resp.noContent, Backend.initDB) ∧
    Backend.cancelAppointmentRoute Backend.initDB 99 = (Backend.Resp.noContent, Backend.initDB) ∧
    Backend.Resp.noContent ≠ Backend.Resp.notFound := by
  decide

/-- C7 (amended): for every id that names no existing entity, deleteDoctor,
deleteSlot and cancelAppointment report success (204) and leave the store
unchanged — the deletes are idempotent, never NotFound. -/
theorem C7_delete_missing_is_noop (db : Backend.DB) :
    (∀ did : String, (∀ d ∈ db.doctors, d.id ≠ did) →
       Backend.deleteDoctorRoute db did = (Backend.Resp.noContent, db)) ∧
    (∀ sid : Nat, (∀ s ∈ db.slots, s.id ≠ sid) →
       Backend.deleteSlotRoute db sid = (Backend.Resp.noContent, db)) ∧
    (∀ aid : Nat, (∀ a ∈ db.appointments, a.id ≠ aid) →
       Backend.cancelAppointmentRoute db aid = (Backend.Resp.noContent, db)) := by
  refine ⟨?_, ?_, ?_⟩
  · intro did hmiss
    unfold Backend.deleteDoctorRoute Backend.deleteDoctor
    rw [if_neg]
    simp only [List.any_eq_true, beq_iff_eq, not_exists, not_and]
    exact hmiss
  · intro sid hmiss
    unfold Backend.deleteSlotRoute Backend.deleteSlot
    rw [if_neg]
    simp only [List.any_eq_true, beq_iff_eq, not_exists, not_and]
    exact hmiss
  · intro aid hmiss
    unfold Backend.cancelAppointmentRoute Backend.cancelAppointment
    have hf : db.appointments.filter (fun a => a.id != aid) = db.appointments := by
      rw [List.filter_eq_self]
      intro a hma
      simpa using hmiss a hma
    rw [hf]

/-- Witness for C7 (amended): deleting the absent doctor D999 from the seeded
store is a successful no-op. -/
theorem C7_delete_missing_is_noop_witness :
    Backend.deleteDoctorRoute Backend.initDB "D999" = (Backend.Resp.noContent, Backend.initDB) :=
  (C7_delete_missing_is_noop Backend.initDB).1 "D999" (by decide)

/-- C8: updating an existing doctor touches only that doctor's fields: the
response carries the same id, slots, appointments, id counter and the id
column of the doctors table are untouched, and every other doctor row is
exactly as before. -/
theorem C8_updateDoctor_frame (db : Backend.DB) (id : String)
    (name speciality room : Option String)
    (hd : ∃ d ∈ db.doctors, d.id = id) :
    ∃ (d2 : Backend.Doctor) (db2 : Backend.DB),
      Backend.updateDoctor db id name speciality room = (Backend.Resp.okDoctor d2, db2) ∧
      d2.id = id ∧
      db2.slots = db.slots ∧ db2.appointments = db.appointments ∧
      db2.nextId = db.nextId ∧
      db2.doctors.map (fun d => d.id) = db.doctors.map (fun d => d.id) ∧
      (∀ d ∈ db.doctors, d.id ≠ id → d ∈ db2.doctors) := by
  unfold Backend.updateDoctor
  have hfind : (db.doctors.find? (fun d => d.id == id)).isSome := by
    rw [List.find?_isSome]
    obtain ⟨d, hdm, hdid⟩ := hd
    exact ⟨d, hdm, by simpa using hdid⟩
  obtain ⟨doc, hdoc⟩ := Option.isSome_iff_exists.mp hfind
  simp only [hdoc]
  refine ⟨_, _, rfl, rfl, rfl, rfl, rfl, ?_, ?_⟩
  · rw [List.map_map]
    apply List.map_congr_left
    intro e _
    by_cases he : e.id = id
    · simp [he]
    · simp [he]
  · intro d hdm hne
    refine List.mem_map.mpr ⟨d, hdm, ?_⟩
    rw [if_neg (by simpa using hne)]

/-- Witness for C8: renaming seeded doctor D001 leaves slots untouched. -/
theorem C8_updateDoctor_frame_witness :
    ∃ (d2 : Backend.Doctor) (db2 : Backend.DB),
      Backend.updateDoctor Backend.initDB "D001" (some "Dr. A. Mehta") none none =
        (Backend.Resp.okDoctor d2, db2) ∧
      d2.id = "D001" ∧
      db2.slots = Backend.initDB.slots ∧ db2.appointments = Backend.initDB.appointments ∧
      db2.nextId = Backend.initDB.nextId ∧
      db2.doctors.map (fun d => d.id) = Backend.initDB.doctors.map (fun d => d.id) ∧
      (∀ d ∈ Backend.initDB.doctors, d.id ≠ "D001" → d ∈ db2.doctors) :=
  C8_updateDoctor_frame Backend.initDB "D001" (some "Dr. A. Mehta") none none (by decide)

namespace Frontend

theorem funiq_of_filter {l : List FAppointment} {p : FAppointment → Bool}
    (h : l.Pairwise (fun a b => a.slotId ≠ b.slotId)) :
    (l.filter p).Pairwise (fun a b => a.slotId ≠ b.slotId) :=
  List.Pairwise.sublist (List.filter_sublist l) h

theorem funiq_step (st : FState) (op : FOp) (h : FUnique st) : FUnique (fStep st op) := by
  unfold FUnique at h ⊢
  cases op with
  | book sid nm ph rs nid now =>
    rw [fStep]
    unfold confirmBooking
    split
    · exact h
    split
    · exact h
    split
    · exact h
    · rename_i hnb
      dsimp only
      rw [List.pairwise_append]
      refine ⟨h, List.pairwise_singleton _ _, ?_⟩
      intro x hx y hy
      have hyv : y = ⟨nid, sid, strTrim nm, strTrim ph, strTrim rs, "Confirmed", now⟩ := by
        simpa using hy
      subst hyv
      simp only [isSlotBooked, List.any_eq_true, beq_iff_eq] at hnb
      exact fun hc => hnb ⟨x, hx, hc⟩
  | delDoctor did =>
    rw [fStep]
    unfold deleteDoctor
    dsimp only
    exact funiq_of_filter h
  | cancel aid =>
    rw [fStep]
    exact funiq_of_filter h
  | newDoctor id nm sp rm =>
    rw [fStep]
    unfold saveNewDoctor
    split
    · exact h
    split <;> exact h
  | editDoctor id nm sp rm =>
    rw [fStep]
    unfold saveEditDoctor
    split <;> exact h
  | newSlot nid did dt tm =>
    rw [fStep]
    unfold saveNewSlot
    split <;> exact h
  | editSlot sid did dt tm =>
    rw [fStep]
    unfold saveEditSlot
    split <;> exact h

theorem fDeleteDoctor_cascade (st : FState) (did : String) :
    (∀ s ∈ (deleteDoctor st did).slots, s.doctorId ≠ did) ∧
    (∀ a ∈ (deleteDoctor st did).appointments,
      ∃ s ∈ (deleteDoctor st did).slots, s.id = a.slotId) := by
  unfold deleteDoctor
  dsimp only
  constructor
  · intro s hsm
    have h2 := (List.mem_filter.mp hsm).2
    simpa using h2
  · intro a ham
    have h2 := (List.mem_filter.mp ham).2
    simp only [List.any_eq_true, beq_iff_eq] at h2
    exact h2

end Frontend

/-- C9: the browser demo, run as a single-writer sequence of its actions,
preserves the uniqueness invariant (its booking handler refuses a slot that
already has an appointment), and its deleteDoctor leaves no slot of the
deleted doctor and no appointment whose slot is gone. -/
theorem C9_frontend_invariants :
    (∀ st op, Frontend.FUnique st → Frontend.FUnique (Frontend.fStep st op)) ∧
    (∀ st did,
      (∀ s ∈ (Frontend.deleteDoctor st did).slots, s.doctorId ≠ did) ∧
      (∀ a ∈ (Frontend.deleteDoctor st did).appointments,
         ∃ s ∈ (Frontend.deleteDoctor st did).slots, s.id = a.slotId)) :=
  ⟨fun st op h => Frontend.funiq_step st op h,
   fun st did => Frontend.fDeleteDoctor_cascade st did⟩

/-- Witness for C9: the invariant survives a concrete booking action from the
demo's default state. -/
theorem C9_frontend_invariants_witness :
    Frontend.FUnique (Frontend.fStep Frontend.defaultState
      (Frontend.FOp.book "S1" "Alice" "" "" "AP1" "T")) :=
  C9_frontend_invariants.1 Frontend.defaultState _ (by unfold Frontend.FUnique; decide)

/-- C10: every storage constraint failure during the appointment insert is
reported as Conflict ("slot already booked"): in particular, when the slot
existed at the handler's pre-check snapshot but is gone by insert time, the
foreign-key violation is returned as Conflict, not NotFound, and the store is
unchanged.  The second conjunct shows the catch-clause translation covers
every constraint code of this schema. -/
theorem C10_constraint_failures_are_conflict (dbCheck dbInsert : Backend.DB)
    (sid : Nat) (nm : String) (ph rs : Option String) (now : String)
    (hnm : strTrim nm ≠ "")
    (hcheck : ∃ s ∈ dbCheck.slots, s.id = sid)
    (hgone : ∀ s ∈ dbInsert.slots, s.id ≠ sid) :
    Backend.bookRacy dbCheck dbInsert sid nm ph rs now = (Backend.Resp.conflict, dbInsert) ∧
    ∀ e : Backend.StoreErr,
      strStartsWith (Backend.sqliteCode e) "SQLITE_CONSTRAINT" = true := by
  constructor
  · unfold Backend.bookRacy
    rw [if_neg (by simpa using hnm)]
    have hfind : (dbCheck.slots.find? (fun s => s.id == sid)).isSome := by
      rw [List.find?_isSome]
      obtain ⟨s, hsm, hsid⟩ := hcheck
      exact ⟨s, hsm, by simpa using hsid⟩
    obtain ⟨s0, hs0⟩ := Option.isSome_iff_exists.mp hfind
    simp only [hs0]
    obtain ⟨e, he⟩ := Backend.insertAppointment_error_of_no_slot
      dbInsert (Backend.mkAppointment dbInsert sid nm ph rs now)
      (by intro s hs2
          simpa [Backend.mkAppointment] using hgone s hs2)
    simp only [he, Backend.sqliteCode_constraint e, if_true]
  · exact Backend.sqliteCode_constraint

/-- Witness for C10: slot 0 passes the pre-check against the seeded store but
has been deleted by insert time — the caller still gets Conflict. -/
theorem C10_constraint_failures_are_conflict_witness :
    Backend.bookRacy Backend.initDB (Backend.deleteSlot Backend.initDB 0) 0 "Alice"
        none none "T" =
      (Backend.Resp.conflict, Backend.deleteSlot Backend.initDB 0) :=
  (C10_constraint_failures_are_conflict Backend.initDB (Backend.deleteSlot Backend.initDB 0)
    0 "Alice" none none "T" (by decide) (by decide) (by decide)).1
